import Mathlib

/-
Verification of the gRPC bidirectional-stream state machine of the Firestore
remote layer (GrpcStream).  The implementation file of the repository
(Firestore/core/src/firebase/firestore/remote/grpc_stream.cc) ships only its
test suite here, so the state machine below is modelled from the repository
specification (spec.md sections 3, 4.3, 4.4 and 7), with the internally
issued Finish after a failure taken from the in-repository test
GrpcStreamTest.ErrorOnStart, which force-completes a Finish transport
completion that no public call ever requested.

The model is a discrete-event system: public calls (Start, Write,
WriteAndFinish, Finish), a generation raise by the consumer, and transport
completions.  Completions are delivered in issue (FIFO) order, mirroring the
test fixture's ForceFinish, each carrying the gRPC ok flag.  Precondition
violations (fatal assertion failures in the implementation) are modelled as
Option.none results of the public-call functions.
-/

namespace GrpcStreaming

/-- Modelled from the spec: the StreamState lifecycle
`Initial → Started → Open → (Finishing | Error) → Finished` of the missing
grpc_stream.cc (spec.md section 3). -/
inductive StreamState where
  | Initial
  | Started
  | Open
  | Finishing
  | Error
  | Finished
deriving DecidableEq, Repr

/-- Modelled from the spec: the four kinds of asynchronous transport
actions a StreamOperation can represent (spec.md section 4.3). -/
inductive OpKind where
  | start
  | read
  | write
  | finish
deriving DecidableEq, Repr

/-- Modelled from the spec: one in-flight StreamOperation of the missing
grpc_stream.cc — its kind, the observer epoch captured at issue time, and
(for writes) the opaque payload, modelled as a natural number. -/
structure StreamOp where
  kind : OpKind
  epoch : Nat
  payload : Nat
deriving DecidableEq, Repr

/-- Modelled from the spec: the StreamObserver callbacks
`OnStreamStart`, `OnStreamRead`, `OnStreamError` (names as in the
repository test's Observer). -/
inductive Notif where
  | onStreamStart
  | onStreamRead
  | onStreamError
deriving DecidableEq, Repr

/-- Modelled from the spec: the state of one GrpcStream instance of the
missing grpc_stream.cc, together with the observer's current generation,
the FIFO list of operations outstanding in the transport, the pending
write queue, the flag recording that WriteAndFinish asked to finish once
the writes drain, and the ordered list of notifications delivered to the
observer so far. -/
structure GrpcStream where
  state : StreamState
  gen : Nat
  outstanding : List StreamOp
  pendingWrites : List Nat
  finishAfterDrain : Bool
  notifications : List Notif
deriving DecidableEq, Repr

/-- Modelled from the spec: a freshly constructed stream, in `Initial`,
with nothing outstanding and nothing observed. -/
def init : GrpcStream :=
  { state := .Initial
    gen := 0
    outstanding := []
    pendingWrites := []
    finishAfterDrain := false
    notifications := [] }

/-- Whether a Write operation is currently outstanding in the transport. -/
def hasWriteOutstanding (s : GrpcStream) : Bool :=
  s.outstanding.any (fun op => op.kind == .write)

/-- Modelled from the spec: public `Start()` of the missing grpc_stream.cc —
a precondition violation (`none`) unless in `Initial`; transitions to
`Started` and issues a Start operation capturing the current epoch
(spec.md section 4.4). -/
def start (s : GrpcStream) : Option GrpcStream :=
  if s.state = .Initial then
    some { s with
            state := .Started
            outstanding :=
              s.outstanding ++ [{ kind := .start, epoch := s.gen, payload := 0 }] }
  else none

/-- Modelled from the spec: public `Write(payload)` of the missing
grpc_stream.cc — a precondition violation unless in `Open`; issued
immediately when no write is outstanding, otherwise appended to the
pending write queue (spec.md section 4.4). -/
def write (s : GrpcStream) (p : Nat) : Option GrpcStream :=
  if s.state = .Open then
    if hasWriteOutstanding s then
      some { s with pendingWrites := s.pendingWrites ++ [p] }
    else
      some { s with
              outstanding :=
                s.outstanding ++ [{ kind := .write, epoch := s.gen, payload := p }] }
  else none

/-- Modelled from the spec: public `WriteAndFinish(payload)` of the missing
grpc_stream.cc — a precondition violation unless in `Open`; otherwise
behaves as `Write` and additionally records that the stream must finish
once that write and all previously queued writes have drained.  The
returned Bool reports whether this call was the one that triggered the
final flush, i.e. issued the last write immediately (spec.md section 4.4). -/
def writeAndFinish (s : GrpcStream) (p : Nat) : Option (Bool × GrpcStream) :=
  if s.state = .Open then
    if hasWriteOutstanding s then
      some (false,
        { s with
            pendingWrites := s.pendingWrites ++ [p]
            finishAfterDrain := true })
    else
      some (true,
        { s with
            outstanding :=
              s.outstanding ++ [{ kind := .write, epoch := s.gen, payload := p }]
            finishAfterDrain := true })
  else none

/-- Modelled from the spec: public `Finish()` of the missing
grpc_stream.cc — valid from any non-terminal state; a second call is a
precondition violation.  If no operation is outstanding the Finish
operation is issued immediately, otherwise its issue is deferred until the
outstanding operations complete.  Pending writes are discarded.  Entering
`Finishing` through this call is what records that finishing was
caller-initiated (spec.md section 4.4). -/
def finish (s : GrpcStream) : Option GrpcStream :=
  if s.state = .Finishing ∨ s.state = .Finished then none
  else if s.outstanding = [] then
    some { s with
            state := .Finishing
            pendingWrites := []
            outstanding := [{ kind := .finish, epoch := s.gen, payload := 0 }] }
  else
    some { s with state := .Finishing, pendingWrites := [] }

/-- Modelled from the spec: after a Write completes ok in `Open`, flush the
next queued write if any; when the queue is drained and WriteAndFinish had
been requested, transition to `Finishing` and issue the Finish operation
(spec.md section 4.4). -/
def flushNext (s : GrpcStream) : GrpcStream :=
  match s.pendingWrites with
  | p :: rest =>
      { s with
          pendingWrites := rest
          outstanding :=
            s.outstanding ++ [{ kind := .write, epoch := s.gen, payload := p }] }
  | [] =>
      if s.finishAfterDrain then
        { s with
            state := .Finishing
            outstanding :=
              s.outstanding ++ [{ kind := .finish, epoch := s.gen, payload := 0 }] }
      else s

/-- Modelled from the spec: the failure path of the missing grpc_stream.cc —
any non-ok completion while in `Started` or `Open` moves to `Error` and
notifies `OnError` exactly once (spec.md sections 4.4 and 7); the stream
itself then issues the Finish operation that releases the transport, as
exercised by the repository test GrpcStreamTest.ErrorOnStart. -/
def fail (s : GrpcStream) : GrpcStream :=
  { s with
      state := .Error
      pendingWrites := []
      notifications := s.notifications ++ [.onStreamError]
      outstanding :=
        s.outstanding ++ [{ kind := .finish, epoch := s.gen, payload := 0 }] }

/-- Modelled from the spec: the per-state completion handler of the missing
grpc_stream.cc (the "On completion of…" column of the state table, spec.md
section 4.4), applied after the completed operation has been removed from
the outstanding list and its epoch found current.  In `Started`, a
successful Start opens the stream, notifies `OnStart` and issues the first
Read; in `Open`, a successful Read notifies `OnRead` and re-issues a Read,
a successful Write flushes the queue; any non-ok completion in `Started`
or `Open` fails the stream; in `Finishing`, the Finish completion reaches
`Finished` silently (caller-initiated) while other completions are drained,
issuing the deferred Finish once nothing is outstanding; in `Error`, the
Finish completion reaches `Finished` and everything else is drained. -/
def handle (s : GrpcStream) (op : StreamOp) (ok : Bool) : GrpcStream :=
  match s.state, op.kind, ok with
  | .Started, .start, true =>
      { s with
          state := .Open
          notifications := s.notifications ++ [.onStreamStart]
          outstanding :=
            s.outstanding ++ [{ kind := .read, epoch := s.gen, payload := 0 }] }
  | .Started, _, true => s
  | .Started, _, false => fail s
  | .Open, .read, true =>
      { s with
          notifications := s.notifications ++ [.onStreamRead]
          outstanding :=
            s.outstanding ++ [{ kind := .read, epoch := s.gen, payload := 0 }] }
  | .Open, .write, true => flushNext s
  | .Open, _, true => s
  | .Open, _, false => fail s
  | .Finishing, .finish, _ => { s with state := .Finished }
  | .Finishing, _, _ =>
      if s.outstanding = [] then
        { s with outstanding := [{ kind := .finish, epoch := s.gen, payload := 0 }] }
      else s
  | .Error, .finish, _ => { s with state := .Finished }
  | .Error, _, _ => s
  | .Initial, _, _ => s
  | .Finished, _, _ => s

/-- Modelled from the spec: deliver the next transport completion (FIFO
issue order, as the test fixture's ForceFinish does) with gRPC flag `ok`.
The completion handler first compares the epoch captured at issue time
with the observer's current generation and silently drops a stale
completion without mutating state or notifying (spec.md sections 3
and 4.4). -/
def completeHead (s : GrpcStream) (ok : Bool) : GrpcStream :=
  match s.outstanding with
  | [] => s
  | op :: rest =>
      if op.epoch = s.gen then
        handle { s with outstanding := rest } op ok
      else
        { s with outstanding := rest }

/-- Modelled from the spec: one external event of a stream lifetime — a
public call on the serializing queue, the consumer raising the observer
generation, or a transport completion.  A public call whose precondition
is violated aborts the program in the implementation; here it leaves the
state unchanged, so traces simply never gain behavior from illegal calls. -/
inductive Event where
  | startCall
  | writeCall (p : Nat)
  | writeAndFinishCall (p : Nat)
  | finishCall
  | raiseGen
  | complete (ok : Bool)
deriving DecidableEq, Repr

/-- One step of the event system. -/
def step (s : GrpcStream) (e : Event) : GrpcStream :=
  match e with
  | .startCall => (start s).getD s
  | .writeCall p => (write s p).getD s
  | .writeAndFinishCall p => ((writeAndFinish s p).map Prod.snd).getD s
  | .finishCall => (finish s).getD s
  | .raiseGen => { s with gen := s.gen + 1 }
  | .complete ok => completeHead s ok

/-- Run a list of events from a given stream state. -/
def runFrom (s : GrpcStream) (es : List Event) : GrpcStream :=
  es.foldl step s

/-- Run a list of events from a freshly constructed stream. -/
def run (es : List Event) : GrpcStream :=
  runFrom init es

/-- Number of Write operations outstanding in the transport. -/
def writeCount (l : List StreamOp) : Nat :=
  (l.filter (fun op => op.kind == .write)).length

example :
    (run [Event.startCall, Event.complete true]).notifications
      = [Notif.onStreamStart] := by decide

example :
    (run [Event.startCall, Event.complete true, Event.complete true,
          Event.complete true]).notifications
      = [Notif.onStreamStart, Notif.onStreamRead, Notif.onStreamRead] := by decide

example :
    (run [Event.startCall, Event.complete false]).notifications
      = [Notif.onStreamError] := by decide

example :
    (run [Event.startCall, Event.complete false, Event.complete true]).state
      = StreamState.Finished := by decide



theorem silent_step (s : GrpcStream) (e : Event)
    (h : s.state = .Finishing ∨ s.state = .Error ∨ s.state = .Finished) :
    ((step s e).state = .Finishing ∨ (step s e).state = .Error ∨
      (step s e).state = .Finished) ∧
    (step s e).notifications = s.notifications := by
  obtain ⟨st, g, out, pw, fad, ns⟩ := s
  cases e with
  | startCall =>
      rcases h with h | h | h <;> simp_all [step, start]
  | writeCall p =>
      rcases h with h | h | h <;> simp_all [step, write]
  | writeAndFinishCall p =>
      rcases h with h | h | h <;> simp_all [step, writeAndFinish]
  | finishCall =>
      rcases h with h | h | h <;> simp_all [step, finish] <;> split <;> simp
  | raiseGen =>
      rcases h with h | h | h <;> simp_all [step]
  | complete ok =>
      rcases h with h | h | h <;>
        cases out with
        | nil => simp_all [step, completeHead]
        | cons op rest =>
            obtain ⟨k, ep, pl⟩ := op
            rcases Nat.decEq ep g with hep | hep <;>
              cases k <;> cases ok <;>
                simp_all [step, completeHead, handle] <;>
                (try split) <;> simp



theorem silent_runFrom (es : List Event) (s : GrpcStream)
    (h : s.state = .Finishing ∨ s.state = .Error ∨ s.state = .Finished) :
    (runFrom s es).notifications = s.notifications ∧
    ((runFrom s es).state = .Finishing ∨ (runFrom s es).state = .Error ∨
      (runFrom s es).state = .Finished) := by
  induction es generalizing s with
  | nil => exact ⟨rfl, h⟩
  | cons e rest ih =>
      have hs := silent_step s e h
      have hr := ih (step s e) hs.1
      refine ⟨?_, hr.2⟩
      calc (runFrom (step s e) rest).notifications
            = (step s e).notifications := hr.1
        _ = s.notifications := hs.2

theorem terminal_step (s : GrpcStream) (e : Event)
    (h : s.state = .Finishing ∨ s.state = .Finished) :
    (step s e).state = .Finishing ∨ (step s e).state = .Finished := by
  obtain ⟨st, g, out, pw, fad, ns⟩ := s
  cases e with
  | startCall => rcases h with h | h <;> simp_all [step, start]
  | writeCall p => rcases h with h | h <;> simp_all [step, write]
  | writeAndFinishCall p => rcases h with h | h <;> simp_all [step, writeAndFinish]
  | finishCall => rcases h with h | h <;> simp_all [step, finish]
  | raiseGen => rcases h with h | h <;> simp_all [step]
  | complete ok =>
      rcases h with h | h <;>
        cases out with
        | nil => simp_all [step, completeHead]
        | cons op rest =>
            obtain ⟨k, ep, pl⟩ := op
            rcases Nat.decEq ep g with hep | hep <;>
              cases k <;> cases ok <;>
                simp_all [step, completeHead, handle] <;>
                (try split) <;> simp

theorem step_not_initial (s : GrpcStream) (e : Event)
    (h : s.state ≠ .Initial) : (step s e).state ≠ .Initial := by
  obtain ⟨st, g, out, pw, fad, ns⟩ := s
  cases e with
  | startCall => cases st <;> simp_all [step, start]
  | writeCall p => cases st <;> simp_all [step, write] <;> split <;> simp
  | writeAndFinishCall p =>
      cases st <;> simp_all [step, writeAndFinish] <;> split <;> simp
  | finishCall => cases st <;> simp_all [step, finish] <;> split <;> simp
  | raiseGen => cases st <;> simp_all [step]
  | complete ok =>
      cases out with
      | nil => simp_all [step, completeHead]
      | cons op rest =>
          obtain ⟨k, ep, pl⟩ := op
          rcases Nat.decEq ep g with hep | hep <;>
            cases st <;> cases k <;> cases ok <;>
              simp_all [step, completeHead, handle, fail, flushNext] <;>
              (try split) <;> (try split) <;> (try simp)

theorem finish_some (s s1 : GrpcStream) (h : finish s = some s1) :
    s1.state = .Finishing ∧ s1.notifications = s.notifications := by
  unfold finish at h
  split at h
  · exact absurd h (by simp)
  · split at h <;> (injection h with h; subst h; exact ⟨rfl, rfl⟩)



theorem readLoop_aux (N : Nat) (s : GrpcStream)
    (hst : s.state = .Open)
    (hout : s.outstanding = [{ kind := .read, epoch := s.gen, payload := 0 }]) :
    (runFrom s (List.replicate N (Event.complete true))).notifications
      = s.notifications ++ List.replicate N Notif.onStreamRead ∧
    (runFrom s (List.replicate N (Event.complete true))).outstanding
      = [{ kind := OpKind.read, epoch := s.gen, payload := 0 }] ∧
    (runFrom s (List.replicate N (Event.complete true))).state = .Open ∧
    (runFrom s (List.replicate N (Event.complete true))).gen = s.gen := by
  induction N generalizing s with
  | zero => exact ⟨by simp [runFrom], by simp [runFrom, hout], by simp [runFrom, hst], by simp [runFrom]⟩
  | succ n ih =>
      have hstep : step s (Event.complete true)
          = { s with
                outstanding := [{ kind := .read, epoch := s.gen, payload := 0 }],
                notifications := s.notifications ++ [Notif.onStreamRead] } := by
        simp [step, completeHead, hout, hst, handle]
      have h1 := ih { s with
                outstanding := [{ kind := .read, epoch := s.gen, payload := 0 }],
                notifications := s.notifications ++ [Notif.onStreamRead] }
          (by simp [hst]) (by simp)
      have hrun : runFrom s (List.replicate (n + 1) (Event.complete true))
          = runFrom { s with
                outstanding := [{ kind := .read, epoch := s.gen, payload := 0 }],
                notifications := s.notifications ++ [Notif.onStreamRead] }
              (List.replicate n (Event.complete true)) := by
        rw [List.replicate_succ]
        show runFrom (step s (Event.complete true)) (List.replicate n (Event.complete true)) = _
        rw [hstep]
      rw [hrun]
      refine ⟨?_, h1.2.1, h1.2.2.1, h1.2.2.2⟩
      rw [h1.1]
      simp [List.replicate_succ]



theorem writeCount_append (l1 l2 : List StreamOp) :
    writeCount (l1 ++ l2) = writeCount l1 + writeCount l2 := by
  simp [writeCount, List.filter_append]

theorem writeCount_cons (op : StreamOp) (l : List StreamOp) :
    writeCount (op :: l)
      = (if op.kind = .write then 1 else 0) + writeCount l := by
  simp [writeCount, List.filter_cons]
  split <;> simp_all <;> omega

theorem writeCount_zero_of_no_write (s : GrpcStream)
    (h : hasWriteOutstanding s = false) : writeCount s.outstanding = 0 := by
  simp [hasWriteOutstanding, List.any_eq_false] at h
  simp [writeCount, List.length_eq_zero, List.filter_eq_nil]
  exact h

theorem writeCount_handle (s : GrpcStream) (op : StreamOp) (ok : Bool) :
    writeCount (handle s op ok).outstanding
      ≤ writeCount s.outstanding + (if op.kind = .write then 1 else 0) := by
  obtain ⟨st, g, out, pw, fad, ns⟩ := s
  obtain ⟨k, ep, pl⟩ := op
  cases st <;> cases k <;> cases ok <;>
    cases pw <;>
      simp_all [handle, fail, flushNext, writeCount_append, writeCount] <;>
      (try split) <;> simp [writeCount_append, writeCount]

theorem writeCount_completeHead (s : GrpcStream) (ok : Bool)
    (h : writeCount s.outstanding ≤ 1) :
    writeCount (completeHead s ok).outstanding ≤ 1 := by
  cases hout : s.outstanding with
  | nil => simpa [completeHead, hout] using h
  | cons op rest =>
      rw [hout, writeCount_cons] at h
      have hch : completeHead s ok
          = if op.epoch = s.gen then handle { s with outstanding := rest } op ok
            else { s with outstanding := rest } := by
        simp [completeHead, hout]
      rw [hch]
      have hrest : writeCount ({ s with outstanding := rest } : GrpcStream).outstanding
          = writeCount rest := rfl
      by_cases hep : op.epoch = s.gen
      · rw [if_pos hep]
        have hb := writeCount_handle { s with outstanding := rest } op ok
        rw [hrest] at hb
        by_cases hw : op.kind = .write <;> simp [hw] at h hb <;> omega
      · rw [if_neg hep]
        show writeCount rest ≤ 1
        by_cases hw : op.kind = .write <;> simp [hw] at h <;> omega



theorem writeCount_step (s : GrpcStream) (e : Event)
    (h : writeCount s.outstanding ≤ 1) :
    writeCount (step s e).outstanding ≤ 1 := by
  cases e with
  | startCall =>
      simp only [step, start]
      split
      · show writeCount
            (s.outstanding ++ [{ kind := OpKind.start, epoch := s.gen, payload := 0 }]) ≤ 1
        have hz : writeCount [{ kind := OpKind.start, epoch := s.gen, payload := 0 }] = 0 := rfl
        rw [writeCount_append, hz]
        omega
      · exact h
  | writeCall p =>
      simp only [step, write]
      split
      · split
        · exact h
        · rename_i h1 h2
          have h0 : writeCount s.outstanding = 0 :=
            writeCount_zero_of_no_write s (by simpa using h2)
          show writeCount
              (s.outstanding ++ [{ kind := OpKind.write, epoch := s.gen, payload := p }]) ≤ 1
          have hz : writeCount [{ kind := OpKind.write, epoch := s.gen, payload := p }] = 1 := rfl
          rw [writeCount_append, hz, h0]
      · exact h
  | writeAndFinishCall p =>
      simp only [step, writeAndFinish]
      split
      · split
        · exact h
        · rename_i h1 h2
          have h0 : writeCount s.outstanding = 0 :=
            writeCount_zero_of_no_write s (by simpa using h2)
          show writeCount
              (s.outstanding ++ [{ kind := OpKind.write, epoch := s.gen, payload := p }]) ≤ 1
          have hz : writeCount [{ kind := OpKind.write, epoch := s.gen, payload := p }] = 1 := rfl
          rw [writeCount_append, hz, h0]
      · exact h
  | finishCall =>
      simp only [step, finish]
      split
      · exact h
      · split
        · show writeCount [{ kind := OpKind.finish, epoch := s.gen, payload := 0 }] ≤ 1
          exact Nat.zero_le 1
        · exact h
  | raiseGen => exact h
  | complete ok => exact writeCount_completeHead s ok h


/-- Claim C1: a non-ok completion of a current-epoch operation while the
stream is in Started or Open produces exactly one OnError notification and
moves the stream to Error; afterwards no observer notification of any kind
is ever produced again, whatever events follow — in particular the
completions of the operations still outstanding at the failure (the `rest`
of the outstanding list, e.g. a Write in flight or queued writes) are
drained without triggering any notification. -/
theorem failure_notifies_exactly_once (s : GrpcStream) (op : StreamOp)
    (rest : List StreamOp) (es : List Event)
    (hout : s.outstanding = op :: rest)
    (hst : s.state = .Started ∨ s.state = .Open)
    (hlive : op.epoch = s.gen) :
    (completeHead s false).notifications
      = s.notifications ++ [Notif.onStreamError] ∧
    (completeHead s false).state = .Error ∧
    (runFrom (completeHead s false) es).notifications
      = s.notifications ++ [Notif.onStreamError] := by
  have hch : completeHead s false = handle { s with outstanding := rest } op false := by
    simp [completeHead, hout, hlive]
  have hfail : handle { s with outstanding := rest } op false
      = fail { s with outstanding := rest } := by
    obtain ⟨k, ep, pl⟩ := op
    rcases hst with h | h <;> cases k <;> simp [handle, h]
  have hres : completeHead s false = fail { s with outstanding := rest } :=
    hch.trans hfail
  refine ⟨?_, ?_, ?_⟩
  · rw [hres]
    rfl
  · rw [hres]
    rfl
  · have hsil := silent_runFrom es (completeHead s false)
      (by rw [hres]; exact Or.inr (Or.inl rfl))
    rw [hsil.1, hres]
    rfl

theorem failure_notifies_exactly_once_witness :
    (run [Event.startCall, Event.complete true, Event.writeCall 3]).outstanding
      = { kind := OpKind.read, epoch := 0, payload := 0 } ::
        [{ kind := OpKind.write, epoch := 0, payload := 3 }] ∧
    (run [Event.startCall, Event.complete true, Event.writeCall 3]).state
      = StreamState.Open ∧
    (completeHead (run [Event.startCall, Event.complete true, Event.writeCall 3])
        false).notifications
      = (run [Event.startCall, Event.complete true, Event.writeCall 3]).notifications
        ++ [Notif.onStreamError] ∧
    (runFrom (completeHead (run [Event.startCall, Event.complete true,
        Event.writeCall 3]) false)
        [Event.complete true, Event.complete true]).notifications
      = (run [Event.startCall, Event.complete true, Event.writeCall 3]).notifications
        ++ [Notif.onStreamError] :=
  ⟨by decide, by decide,
    (failure_notifies_exactly_once
      (run [Event.startCall, Event.complete true, Event.writeCall 3])
      { kind := OpKind.read, epoch := 0, payload := 0 }
      [{ kind := OpKind.write, epoch := 0, payload := 3 }]
      [Event.complete true, Event.complete true]
      (by decide) (Or.inr (by decide)) (by decide)).1,
    (failure_notifies_exactly_once
      (run [Event.startCall, Event.complete true, Event.writeCall 3])
      { kind := OpKind.read, epoch := 0, payload := 0 }
      [{ kind := OpKind.write, epoch := 0, payload := 3 }]
      [Event.complete true, Event.complete true]
      (by decide) (Or.inr (by decide)) (by decide)).2.2⟩

/-- Claim C2 counterexample: the claim asserts that after the consumer
raises the observer generation, forcing any further completions — including
of new Writes issued after the raise — produces zero additional observer
notifications.  Under the spec's discipline that every operation captures
the epoch valid at issue time, a Write issued after the raise carries the
new, current epoch; when its completion is non-ok the stream fails and
OnError is delivered.  At this concrete input the notifications grow from
[OnStart] to [OnStart, OnError] after the raise, refuting the claim. -/
theorem raising_generation_counterexample :
    (run [Event.startCall, Event.complete true, Event.raiseGen]).notifications
      = [Notif.onStreamStart] ∧
    (run [Event.startCall, Event.complete true, Event.raiseGen,
          Event.writeCall 7, Event.complete true, Event.complete false]).notifications
      = [Notif.onStreamStart, Notif.onStreamError] ∧
    ¬ (run [Event.startCall, Event.complete true, Event.raiseGen,
          Event.writeCall 7, Event.complete true, Event.complete false]).notifications
      = [Notif.onStreamStart] :=
  ⟨by decide, by decide, by decide⟩

/-- Claim C2 (amended): a completion whose captured epoch no longer equals
the observer's current generation is dropped completely — no observer
notification and no state mutation beyond consuming the operation — so
completions of operations issued before a generation raise can never
notify, and the observer never receives a notification tagged with a stale
epoch; in the repository's trace (raise after one read, then a new write
and further ok completions) the observed sequence stays [OnStart, OnRead].
Only a non-ok completion of an operation issued after the raise (which
carries the current epoch) can still produce an OnError. -/
theorem stale_completion_dropped (s : GrpcStream) (ok : Bool) (op : StreamOp)
    (rest : List StreamOp) (p : Nat)
    (hout : s.outstanding = op :: rest)
    (hstale : ¬ op.epoch = s.gen) :
    completeHead s ok = { s with outstanding := rest } ∧
    (run [Event.startCall, Event.complete true, Event.complete true,
          Event.raiseGen, Event.writeCall p, Event.complete true,
          Event.complete true]).notifications
      = [Notif.onStreamStart, Notif.onStreamRead] := by
  constructor
  · simp [completeHead, hout, hstale]
  · rfl

theorem stale_completion_dropped_witness :
    (run [Event.startCall, Event.complete true, Event.raiseGen]).outstanding
      = { kind := OpKind.read, epoch := 0, payload := 0 } :: [] ∧
    ¬ (0 : Nat) = (run [Event.startCall, Event.complete true, Event.raiseGen]).gen ∧
    completeHead (run [Event.startCall, Event.complete true, Event.raiseGen]) true
      = { run [Event.startCall, Event.complete true, Event.raiseGen] with
            outstanding := [] } :=
  ⟨by decide, by decide,
    (stale_completion_dropped
      (run [Event.startCall, Event.complete true, Event.raiseGen]) true
      { kind := OpKind.read, epoch := 0, payload := 0 } [] 5
      (by decide) (by decide)).1⟩

/-- Claim C3: from a freshly started stream whose Start completed ok (the
stream entered Open and issued the first Read on its own), N consecutive ok
Read completions produce exactly N OnRead notifications after the single
OnStart, and a further Read operation is again outstanding afterwards —
the trace contains no public call requesting any read. -/
theorem read_auto_reissue (N : Nat) :
    (run (Event.startCall :: Event.complete true ::
        List.replicate N (Event.complete true))).notifications
      = Notif.onStreamStart :: List.replicate N Notif.onStreamRead ∧
    (run (Event.startCall :: Event.complete true ::
        List.replicate N (Event.complete true))).outstanding
      = [{ kind := OpKind.read, epoch := 0, payload := 0 }] ∧
    (run (Event.startCall :: Event.complete true ::
        List.replicate N (Event.complete true))).state = .Open := by
  have h := readLoop_aux N (run [Event.startCall, Event.complete true])
      (by decide) (by decide)
  have he : run (Event.startCall :: Event.complete true ::
        List.replicate N (Event.complete true))
      = runFrom (run [Event.startCall, Event.complete true])
          (List.replicate N (Event.complete true)) := rfl
  rw [he]
  refine ⟨?_, ?_, h.2.2.1⟩
  · rw [h.1]
    rfl
  · rw [h.2.1]
    rfl

/-- Claim C4: at most one Write operation is outstanding at any time — the
bound is preserved by every event — and writes queued while a write is
outstanding are issued to the transport strictly in call (FIFO) order:
with w1 issued and w2, w3 pending, each write is issued exactly when the
previous one's completion arrives, and all three drain with no extra
notification beyond the interleaved reads. -/
theorem writes_flush_in_fifo_order (s : GrpcStream) (e : Event)
    (p1 p2 p3 : Nat)
    (hinv : writeCount s.outstanding ≤ 1) :
    writeCount (step s e).outstanding ≤ 1 ∧
    (run [Event.startCall, Event.complete true, Event.writeCall p1,
          Event.writeCall p2, Event.writeCall p3]).outstanding
      = [{ kind := OpKind.read, epoch := 0, payload := 0 },
         { kind := OpKind.write, epoch := 0, payload := p1 }] ∧
    (run [Event.startCall, Event.complete true, Event.writeCall p1,
          Event.writeCall p2, Event.writeCall p3]).pendingWrites = [p2, p3] ∧
    (runFrom (run [Event.startCall, Event.complete true, Event.writeCall p1,
          Event.writeCall p2, Event.writeCall p3])
        [Event.complete true, Event.complete true]).outstanding
      = [{ kind := OpKind.read, epoch := 0, payload := 0 },
         { kind := OpKind.write, epoch := 0, payload := p2 }] ∧
    (runFrom (run [Event.startCall, Event.complete true, Event.writeCall p1,
          Event.writeCall p2, Event.writeCall p3])
        [Event.complete true, Event.complete true]).pendingWrites = [p3] ∧
    (runFrom (runFrom (run [Event.startCall, Event.complete true,
          Event.writeCall p1, Event.writeCall p2, Event.writeCall p3])
        [Event.complete true, Event.complete true])
        [Event.complete true, Event.complete true]).outstanding
      = [{ kind := OpKind.read, epoch := 0, payload := 0 },
         { kind := OpKind.write, epoch := 0, payload := p3 }] ∧
    (runFrom (runFrom (run [Event.startCall, Event.complete true,
          Event.writeCall p1, Event.writeCall p2, Event.writeCall p3])
        [Event.complete true, Event.complete true])
        [Event.complete true, Event.complete true]).pendingWrites = [] ∧
    (runFrom (runFrom (runFrom (run [Event.startCall, Event.complete true,
          Event.writeCall p1, Event.writeCall p2, Event.writeCall p3])
        [Event.complete true, Event.complete true])
        [Event.complete true, Event.complete true])
        [Event.complete true, Event.complete true]).notifications
      = [Notif.onStreamStart, Notif.onStreamRead, Notif.onStreamRead,
         Notif.onStreamRead] := by
  have h5 : run [Event.startCall, Event.complete true, Event.writeCall p1,
        Event.writeCall p2, Event.writeCall p3]
      = { state := .Open, gen := 0,
          outstanding := [{ kind := .read, epoch := 0, payload := 0 },
                          { kind := .write, epoch := 0, payload := p1 }],
          pendingWrites := [p2, p3], finishAfterDrain := false,
          notifications := [.onStreamStart] } := rfl
  have h7 : runFrom
        { state := .Open, gen := 0,
          outstanding := [{ kind := .read, epoch := 0, payload := 0 },
                          { kind := .write, epoch := 0, payload := p1 }],
          pendingWrites := [p2, p3], finishAfterDrain := false,
          notifications := [.onStreamStart] }
        [Event.complete true, Event.complete true]
      = { state := .Open, gen := 0,
          outstanding := [{ kind := .read, epoch := 0, payload := 0 },
                          { kind := .write, epoch := 0, payload := p2 }],
          pendingWrites := [p3], finishAfterDrain := false,
          notifications := [.onStreamStart, .onStreamRead] } := rfl
  have h9 : runFrom
        { state := .Open, gen := 0,
          outstanding := [{ kind := .read, epoch := 0, payload := 0 },
                          { kind := .write, epoch := 0, payload := p2 }],
          pendingWrites := [p3], finishAfterDrain := false,
          notifications := [.onStreamStart, .onStreamRead] }
        [Event.complete true, Event.complete true]
      = { state := .Open, gen := 0,
          outstanding := [{ kind := .read, epoch := 0, payload := 0 },
                          { kind := .write, epoch := 0, payload := p3 }],
          pendingWrites := [], finishAfterDrain := false,
          notifications := [.onStreamStart, .onStreamRead, .onStreamRead] } := rfl
  have h11 : (runFrom
        { state := .Open, gen := 0,
          outstanding := [{ kind := .read, epoch := 0, payload := 0 },
                          { kind := .write, epoch := 0, payload := p3 }],
          pendingWrites := [], finishAfterDrain := false,
          notifications := [.onStreamStart, .onStreamRead, .onStreamRead] }
        [Event.complete true, Event.complete true]).notifications
      = [Notif.onStreamStart, Notif.onStreamRead, Notif.onStreamRead,
         Notif.onStreamRead] := rfl
  refine ⟨writeCount_step s e hinv, ?_, ?_, ?_, ?_, ?_, ?_, ?_⟩
  · rw [h5]
  · rw [h5]
  · rw [h5, h7]
  · rw [h5, h7]
  · rw [h5, h7, h9]
  · rw [h5, h7, h9]
  · rw [h5, h7, h9, h11]

theorem writes_flush_in_fifo_order_witness :
    writeCount init.outstanding ≤ 1 ∧
    writeCount (step init Event.startCall).outstanding ≤ 1 ∧
    (run [Event.startCall, Event.complete true, Event.writeCall 1,
          Event.writeCall 2, Event.writeCall 3]).pendingWrites = [2, 3] :=
  ⟨by decide, (writes_flush_in_fifo_order init Event.startCall 1 2 3 (by decide)).1,
    (writes_flush_in_fifo_order init Event.startCall 1 2 3 (by decide)).2.2.1⟩

/-- Claim C5: when the caller invokes Finish on a stream in any non-terminal
state (the call is accepted, yielding some next state, which is exactly the
non-terminal condition), no observer notification — in particular no
OnError — is ever delivered afterwards, regardless of the outcomes of the
operations still outstanding at the Finish call: the Finishing state
entered by the caller's request keeps every later completion silent. -/
theorem caller_finish_suppresses_onerror (s s1 : GrpcStream) (es : List Event)
    (hf : finish s = some s1) :
    s1.notifications = s.notifications ∧
    (runFrom s1 es).notifications = s.notifications := by
  have h1 := finish_some s s1 hf
  have h2 := silent_runFrom es s1 (Or.inl h1.1)
  exact ⟨h1.2, by rw [h2.1, h1.2]⟩

theorem caller_finish_suppresses_onerror_witness :
    finish (run [Event.startCall, Event.complete true])
      = some (run [Event.startCall, Event.complete true, Event.finishCall]) ∧
    (runFrom (run [Event.startCall, Event.complete true, Event.finishCall])
        [Event.complete false, Event.complete true]).notifications
      = (run [Event.startCall, Event.complete true]).notifications :=
  ⟨by decide,
    (caller_finish_suppresses_onerror
      (run [Event.startCall, Event.complete true])
      (run [Event.startCall, Event.complete true, Event.finishCall])
      [Event.complete false, Event.complete true] (by decide)).2⟩

/-- Claim C6: Start succeeds exactly on a stream still in Initial, moving it
to Started; on any stream no longer in Initial the call is rejected as a
precondition violation (modelled as none), and since no event ever returns
a stream to Initial, Start can succeed at most once per stream lifetime. -/
theorem start_succeeds_at_most_once (s t : GrpcStream) (e : Event)
    (hs : s.state = .Initial) (ht : ¬ t.state = .Initial) :
    (∃ s1, start s = some s1 ∧ s1.state = .Started) ∧
    start t = none ∧
    ¬ (step t e).state = .Initial := by
  refine ⟨?_, ?_, step_not_initial t e ht⟩
  · refine ⟨{ s with
        state := .Started
        outstanding :=
          s.outstanding ++ [{ kind := .start, epoch := s.gen, payload := 0 }] },
      ?_, rfl⟩
    simp [start, hs]
  · simp [start, ht]

theorem start_succeeds_at_most_once_witness :
    init.state = StreamState.Initial ∧
    ¬ (run [Event.startCall]).state = StreamState.Initial ∧
    start (run [Event.startCall]) = none :=
  ⟨by decide, by decide,
    (start_succeeds_at_most_once init (run [Event.startCall])
      (Event.complete true) (by decide) (by decide)).2.1⟩

/-- Claim C7: Write is rejected as a precondition violation in every state
before Open (Initial, and Started while the Start completion is pending),
and on an Open stream it always succeeds — appended to the pending queue
when a write is already outstanding, otherwise issued immediately with the
current epoch. -/
theorem write_only_when_open (s : GrpcStream) (p : Nat) :
    ((s.state = .Initial ∨ s.state = .Started) → write s p = none) ∧
    (s.state = .Open →
      (hasWriteOutstanding s = true →
        write s p = some { s with pendingWrites := s.pendingWrites ++ [p] }) ∧
      (hasWriteOutstanding s = false →
        write s p = some { s with
          outstanding :=
            s.outstanding ++ [{ kind := OpKind.write, epoch := s.gen, payload := p }] })) := by
  constructor
  · rintro (h | h) <;> simp [write, h]
  · intro h
    constructor <;> intro hw <;> simp [write, h, hw]

theorem write_only_when_open_witness :
    write (run [Event.startCall]) 5 = none ∧
    write (run [Event.startCall, Event.complete true]) 5
      = some { run [Event.startCall, Event.complete true] with
          outstanding :=
            (run [Event.startCall, Event.complete true]).outstanding
              ++ [{ kind := OpKind.write, epoch := 0, payload := 5 }] } :=
  ⟨(write_only_when_open (run [Event.startCall]) 5).1 (Or.inr (by decide)),
    ((write_only_when_open (run [Event.startCall, Event.complete true]) 5).2
      (by decide)).2 (by decide)⟩

/-- Claim C8: a first Finish call is accepted from every non-terminal state
— including Initial, before Start was ever called, and Open — and moves the
stream to Finishing; on a stream already in Finishing or Finished the call
is rejected as a precondition violation, and since Finishing and Finished
are closed under every event, a second Finish call is always rejected. -/
theorem finish_first_call_only (s t : GrpcStream) (e : Event)
    (hs : ¬ s.state = .Finishing ∧ ¬ s.state = .Finished)
    (ht : t.state = .Finishing ∨ t.state = .Finished) :
    (∃ s1, finish s = some s1 ∧ s1.state = .Finishing) ∧
    finish t = none ∧
    ((step t e).state = .Finishing ∨ (step t e).state = .Finished) := by
  refine ⟨?_, ?_, terminal_step t e ht⟩
  · unfold finish
    rw [if_neg (by tauto)]
    split
    · exact ⟨_, rfl, rfl⟩
    · exact ⟨_, rfl, rfl⟩
  · unfold finish
    rw [if_pos ht]

theorem finish_first_call_only_witness :
    init.state = StreamState.Initial ∧
    (run [Event.finishCall]).state = StreamState.Finishing ∧
    finish (run [Event.finishCall]) = none :=
  ⟨by decide, by decide,
    (finish_first_call_only init (run [Event.finishCall]) (Event.complete true)
      (by decide) (Or.inl (by decide))).2.1⟩

/-- Claim C9: WriteAndFinish is rejected as a precondition violation unless
the stream is Open; on an Open stream it is exactly Write plus recording
finish-after-drain, its Bool result is true exactly when no write was
outstanding so this call itself issued the last write (triggered the final
flush, false when the payload only joined the queue); once that write and
all previously queued writes drain the stream transitions to Finishing,
issues Finish, and completes with no OnError. -/
theorem writeAndFinish_behavior (s : GrpcStream) (p q : Nat) :
    (¬ s.state = .Open → writeAndFinish s p = none) ∧
    (s.state = .Open →
      writeAndFinish s p
        = (write s p).map
            (fun w => (!hasWriteOutstanding s, { w with finishAfterDrain := true }))) ∧
    (writeAndFinish (run [Event.startCall, Event.complete true]) p).map Prod.fst
      = some true ∧
    (writeAndFinish (run [Event.startCall, Event.complete true,
        Event.writeCall q]) p).map Prod.fst
      = some false ∧
    (run [Event.startCall, Event.complete true, Event.writeAndFinishCall p,
          Event.complete true, Event.complete true]).state = .Finishing ∧
    (run [Event.startCall, Event.complete true, Event.writeAndFinishCall p,
          Event.complete true, Event.complete true]).outstanding
      = [{ kind := OpKind.read, epoch := 0, payload := 0 },
         { kind := OpKind.finish, epoch := 0, payload := 0 }] ∧
    (run [Event.startCall, Event.complete true, Event.writeAndFinishCall p,
          Event.complete true, Event.complete true, Event.complete true,
          Event.complete true]).state = .Finished ∧
    (run [Event.startCall, Event.complete true, Event.writeAndFinishCall p,
          Event.complete true, Event.complete true, Event.complete true,
          Event.complete true]).notifications
      = [Notif.onStreamStart, Notif.onStreamRead] := by
  refine ⟨?_, ?_, rfl, rfl, rfl, rfl, rfl, rfl⟩
  · intro h
    simp [writeAndFinish, h]
  · intro h
    by_cases hw : hasWriteOutstanding s <;> simp [writeAndFinish, write, h, hw]

theorem writeAndFinish_behavior_witness :
    ¬ (run [Event.startCall]).state = StreamState.Open ∧
    writeAndFinish (run [Event.startCall]) 4 = none ∧
    (run [Event.startCall, Event.complete true]).state = StreamState.Open ∧
    writeAndFinish (run [Event.startCall, Event.complete true]) 4
      = (write (run [Event.startCall, Event.complete true]) 4).map
          (fun w => (!hasWriteOutstanding (run [Event.startCall, Event.complete true]),
            { w with finishAfterDrain := true })) :=
  ⟨by decide,
    (writeAndFinish_behavior (run [Event.startCall]) 4 0).1 (by decide),
    by decide,
    (writeAndFinish_behavior (run [Event.startCall, Event.complete true]) 4 0).2.1
      (by decide)⟩

/-- Claim C10: when the Start operation of a just-started stream completes
non-ok (before the stream ever reached Open), the stream delivers the single
OnError and itself issues a Finish operation against the transport — the
caller never called Finish — and that Finish operation's completion
produces no further notification, reaching Finished; on the concrete trace
the full observed notification sequence is exactly [OnError]. -/
theorem error_on_start_issues_finish (s : GrpcStream)
    (hst : s.state = .Started)
    (hout : s.outstanding = [{ kind := OpKind.start, epoch := s.gen, payload := 0 }]) :
    (completeHead s false).notifications
      = s.notifications ++ [Notif.onStreamError] ∧
    (completeHead s false).outstanding
      = [{ kind := OpKind.finish, epoch := s.gen, payload := 0 }] ∧
    (completeHead s false).state = .Error ∧
    (completeHead (completeHead s false) true).state = .Finished ∧
    (completeHead (completeHead s false) true).notifications
      = s.notifications ++ [Notif.onStreamError] ∧
    (run [Event.startCall, Event.complete false, Event.complete true]).notifications
      = [Notif.onStreamError] := by
  have h1 : completeHead s false = fail { s with outstanding := [] } := by
    simp [completeHead, hout, hst, handle]
  have h2 : completeHead (fail { s with outstanding := [] }) true
      = { fail { s with outstanding := [] } with
            state := .Finished, outstanding := [] } := by
    simp [completeHead, fail, handle]
  refine ⟨?_, ?_, ?_, ?_, ?_, by decide⟩
  · rw [h1]
    rfl
  · rw [h1]
    rfl
  · rw [h1]
    rfl
  · rw [h1, h2]
  · rw [h1, h2]
    rfl

theorem error_on_start_issues_finish_witness :
    (run [Event.startCall]).state = StreamState.Started ∧
    (run [Event.startCall]).outstanding
      = [{ kind := OpKind.start, epoch := 0, payload := 0 }] ∧
    (completeHead (run [Event.startCall]) false).outstanding
      = [{ kind := OpKind.finish, epoch := 0, payload := 0 }] ∧
    (completeHead (completeHead (run [Event.startCall]) false) true).state
      = StreamState.Finished :=
  ⟨by decide, by decide,
    (error_on_start_issues_finish (run [Event.startCall]) (by decide) (by decide)).2.1,
    (error_on_start_issues_finish (run [Event.startCall]) (by decide) (by decide)).2.2.2.1⟩


end GrpcStreaming
